import Mathlib

/-!
# Verification of the homunculus core routing engine

Shallow embedding of the semantic-routing core of the repository:

* `semantic-utils.ts` / `signal.ts` — cosine similarity (lenient and strict
  variants) and the resonance test;
* `signal-synapse.ts` — the adaptive synapse (memoized transform, efficacy
  running mean, confidence, weight);
* `biosphere.ts` — receiver resolution, the three-tier coupling rule,
  injection broadcast, and birth/death of agents;
* `equilibrium-detector.ts` — the guarded energy-based equilibrium detector
  (tension, momentum, coherence, clarity, stagnation).

JavaScript numbers are modelled as real numbers, JS `Map`s as
insertion-ordered association lists, and `Array.prototype.slice` with its
exact negative-index semantics.  Backend (LLM) calls are modelled as pure
oracle functions; every function that performs embedding calls additionally
returns the list of embedded texts, in call order, so that claims about the
number of backend embedding calls can be stated.  Functions that `throw` are
modelled in `Except`; the observability-only `reasoning` string and
`console` output of the source are not modelled.
-/

noncomputable section

set_option linter.unusedVariables false

/-! ## JS primitives: insertion-ordered maps and `Array.prototype.slice` -/

/-- JS `Map.prototype.set`: replace in place if the key is present, else
append at the end (JS maps preserve insertion order). -/
def mapSet {α : Type} (m : List (String × α)) (k : String) (v : α) : List (String × α) :=
  if m.any (fun p => p.1 == k) then m.map (fun p => if p.1 = k then (k, v) else p)
  else m ++ [(k, v)]

/-- JS `Map.prototype.delete`. -/
def mapDelete {α : Type} (m : List (String × α)) (k : String) : List (String × α) :=
  m.filter (fun p => ¬ p.1 = k)

/-- JS `Array.prototype.slice(start, stop)` with the ECMAScript clamping
rules for negative indices (`-0` is converted to `+0`, hence `slice(-w)`
with `w = 0` yields the whole array). -/
def jsSlice {α : Type} (l : List α) (start : ℤ) (stop : Option ℤ) : List α :=
  let len : ℤ := l.length
  let s : ℤ := if start < 0 then max (len + start) 0 else min start len
  let e : ℤ := match stop with
    | none => len
    | some e0 => if e0 < 0 then max (len + e0) 0 else min e0 len
  (l.drop s.toNat).take (e - s).toNat

/-- `Math.max(0, Math.min(1, x))`, the clamping idiom used throughout the
detector. -/
def clamp01 (x : ℝ) : ℝ := max 0 (min 1 x)

theorem clamp01_nonneg (x : ℝ) : 0 ≤ clamp01 x := le_max_left 0 _

theorem clamp01_le_one (x : ℝ) : clamp01 x ≤ 1 := by
  unfold clamp01
  rcases le_total 1 (min 1 x) with h | h
  · simp
  · simp [h]

theorem clamp01_gt_of_gt {x c : ℝ} (hc : c < 1) (h : c < x) : c < clamp01 x := by
  unfold clamp01
  rcases le_total x 1 with h1 | h1
  · rw [min_eq_right h1]
    exact lt_of_lt_of_le h (le_max_right 0 x)
  · rw [min_eq_left h1]
    exact lt_of_lt_of_le hc (le_max_right 0 1)

/-! ## `semantic-utils.ts` and the strict cosine of `signal.ts`

The single loop of the source accumulates `dotProduct`, `magnitudeA` and
`magnitudeB` over the common index range; here these are the three
`zipWith` sums (equal for the equal-length vectors both variants operate
on). -/

/-- Shared loop body of both cosine variants: `dot / (√ΣA² · √ΣB²)`, with
`0` when the magnitude product is zero. -/
def cosineCore (a b : List ℝ) : ℝ :=
  let dotProduct := (List.zipWith (fun x y => x * y) a b).sum
  let magnitudeA := (List.zipWith (fun x y => x * y) a a).sum
  let magnitudeB := (List.zipWith (fun x y => x * y) b b).sum
  let magnitude := Real.sqrt magnitudeA * Real.sqrt magnitudeB
  if magnitude = 0 then 0 else dotProduct / magnitude

/-- `cosineSimilarity` of `semantic-utils.ts`: returns `0` for empty or
unequal-length vectors (the lenient similarity-search variant). -/
def cosineSimilarity (a b : List ℝ) : ℝ :=
  if a.length = 0 ∨ b.length = 0 ∨ a.length ≠ b.length then 0
  else cosineCore a b

/-- The private `cosineSimilarity` of `signal.ts`: a dimension mismatch is a
fatal error (thrown in the source, `Except.error` here). -/
def strictCosineSimilarity (a b : List ℝ) : Except String ℝ :=
  if a.length ≠ b.length then .error "Vector dimension mismatch"
  else .ok (cosineCore a b)

/-! ### Cauchy-Schwarz: every cosine value is at most 1 -/

theorem sum_zipWith_mul_eq_range :
    ∀ a b : List ℝ, (List.zipWith (fun x y => x * y) a b).sum =
      ∑ i ∈ Finset.range (min a.length b.length), a.getD i 0 * b.getD i 0 := by
  intro a
  induction a with
  | nil => intro b; simp
  | cons x xs ih =>
    intro b
    cases b with
    | nil => simp
    | cons y ys =>
      simp only [List.zipWith_cons_cons, List.sum_cons, List.length_cons]
      rw [Nat.succ_min_succ, Finset.sum_range_succ', ih ys]
      simp [add_comm]

theorem zipWith_mul_self_sum_nonneg (a : List ℝ) :
    0 ≤ (List.zipWith (fun x y => x * y) a a).sum := by
  rw [sum_zipWith_mul_eq_range]
  exact Finset.sum_nonneg fun i _ => mul_self_nonneg _

theorem cosineCore_le_one {a b : List ℝ} (h : a.length = b.length) :
    cosineCore a b ≤ 1 := by
  unfold cosineCore
  set dotProduct := (List.zipWith (fun x y => x * y) a b).sum with hdot
  set magnitudeA := (List.zipWith (fun x y => x * y) a a).sum with hA
  set magnitudeB := (List.zipWith (fun x y => x * y) b b).sum with hB
  by_cases hmag : Real.sqrt magnitudeA * Real.sqrt magnitudeB = 0
  · simp [hmag]
  · rw [if_neg hmag]
    have hAnn : 0 ≤ magnitudeA := zipWith_mul_self_sum_nonneg a
    have hBnn : 0 ≤ magnitudeB := zipWith_mul_self_sum_nonneg b
    have hpos : 0 < Real.sqrt magnitudeA * Real.sqrt magnitudeB :=
      lt_of_le_of_ne (mul_nonneg (Real.sqrt_nonneg _) (Real.sqrt_nonneg _)) (Ne.symm hmag)
    rw [div_le_one hpos]
    have hcs : dotProduct ≤ Real.sqrt magnitudeA * Real.sqrt magnitudeB := by
      rw [hdot, hA, hB, sum_zipWith_mul_eq_range a b, sum_zipWith_mul_eq_range a a,
        sum_zipWith_mul_eq_range b b]
      simp only [min_self, h]
      calc ∑ i ∈ Finset.range b.length, a.getD i 0 * b.getD i 0
          ≤ Real.sqrt (∑ i ∈ Finset.range b.length, a.getD i 0 ^ 2) *
            Real.sqrt (∑ i ∈ Finset.range b.length, b.getD i 0 ^ 2) :=
            Real.sum_mul_le_sqrt_mul_sqrt _ _ _
        _ = _ := by
            congr 1 <;> · congr 1; exact Finset.sum_congr rfl fun i _ => (sq _)
    exact hcs

theorem cosineSimilarity_le_one (a b : List ℝ) : cosineSimilarity a b ≤ 1 := by
  unfold cosineSimilarity
  split
  · norm_num
  · next hcond =>
    push_neg at hcond
    exact cosineCore_le_one hcond.2.2

/-! ## `signal.ts`: the Signal envelope and the resonance test -/

/-- The Signal message envelope (immutable once created; the pheromone is
populated only by the router). -/
structure Signal where
  id : String
  thought : String
  emittedBy : String
  pheromone : List ℝ
  timestamp : ℝ
  inferredIntent : Option String := none
  inferredTags : Option (List String) := none

/-- ReceptorField: the patterns an agent cares about plus an optional
similarity threshold (default 0.6). -/
structure ReceptorField where
  patterns : List String
  threshold : Option ℝ := none

/-- `resonates` of `signal.ts`: cosine similarity (strict variant, dimension
mismatch is fatal) strictly above the receptor threshold. -/
def resonates (signalPheromone : List ℝ) (field : ReceptorField)
    (receptorFieldEmbedding : List ℝ) : Except String Bool :=
  let threshold := field.threshold.getD 0.6
  match strictCosineSimilarity signalPheromone receptorFieldEmbedding with
  | .error e => .error e
  | .ok similarity => .ok (decide (threshold < similarity))

/-! ## `signal-synapse.ts`: the adaptive synapse -/

/-- Synaptic strength metrics. -/
structure SynapticStrength where
  baseSimilarity : ℝ
  activations : ℕ
  efficacy : ℝ
  confidence : ℝ
  conductionTime : ℝ
  lastFiring : ℝ

/-- `sigmoid` of `signal-synapse.ts`. -/
def sigmoid (x : ℝ) : ℝ := 1 / (1 + Real.exp (-x))

/-- `calculateConfidence`: `σ(log(activations + 1) - 2) · efficacy`, zero
at zero activations. -/
def calculateConfidence (activations : ℕ) (efficacy : ℝ) : ℝ :=
  if activations = 0 then 0
  else sigmoid (Real.log ((activations : ℝ) + 1) - 2) * efficacy

/-- The per-synapse mutable state: strength metrics plus the bounded memo
cache (source thought text to transformed text). -/
structure SynapseState where
  strength : SynapticStrength
  synapticMemory : List (String × String)

/-- Outcome of the backend `llm.chat` rephrasing call inside `transform`
(the promise either resolves with the transformed text or rejects). -/
inductive ChatOutcome where
  | success (text : String)
  | failure

/-- `transform` of `createSignalSynapse`.  `fromId` is the synapse source
agent id; `tStart` and `tEnd` are the `Date.now()` readings at firing start
and at completion (`firingTime = tEnd - tStart`).  The third component of
the result records whether the backend chat call was made. -/
def transform (fromId : String) (st : SynapseState) (signal : Signal)
    (chatResult : ChatOutcome) (tStart tEnd : ℝ) : SynapseState × Signal × Bool :=
  match List.lookup signal.thought st.synapticMemory with
  | some cached =>
      let s := st.strength
      let n := s.activations + 1
      ({ st with strength :=
          { s with activations := n, lastFiring := tEnd,
                   confidence := calculateConfidence n s.efficacy } },
       { signal with thought := cached, emittedBy := fromId }, false)
  | none =>
    match chatResult with
    | .success transformed =>
        let s := st.strength
        let n := s.activations + 1
        let firingTime := tEnd - tStart
        let efficacy := (s.efficacy * ((n : ℝ) - 1) + 1.0) / (n : ℝ)
        let conductionTime := (s.conductionTime * ((n : ℝ) - 1) + firingTime) / (n : ℝ)
        ({ strength :=
            { s with activations := n, efficacy := efficacy,
                     conductionTime := conductionTime, lastFiring := tEnd,
                     confidence := calculateConfidence n efficacy },
           synapticMemory := mapSet st.synapticMemory signal.thought transformed },
         { signal with thought := transformed, emittedBy := fromId }, true)
    | .failure =>
        let s := st.strength
        let n := s.activations + 1
        let efficacy := (s.efficacy * ((n : ℝ) - 1) + 0.0) / (n : ℝ)
        ({ st with strength :=
            { s with activations := n, efficacy := efficacy,
                     confidence := calculateConfidence n efficacy } },
         signal, true)

/-- `getWeight`: `baseSimilarity · (1 + log(activations + 1)) · efficacy`. -/
def getWeight (s : SynapticStrength) : ℝ :=
  let potentiation := 1 + Real.log ((s.activations : ℝ) + 1)
  s.baseSimilarity * potentiation * s.efficacy

/-! ## Claims about the synapse (C3, C6, C7) -/

/-- C3: For every synapse and every signal whose exact thought text was
already transformed by that synapse (a memo-cache hit), a subsequent
transform call makes no backend call (third component `false`), returns the
signal with the cached transformed thought and `emittedBy` set to the
source agent id, and records the activation as a zero-latency, fully
successful transmission: the activation count grows by one and the last
firing time is set, while the efficacy and conduction-time running means
are left untouched (no latency sample and no failure sample is added) and
the confidence is recomputed from the new count with the unchanged
efficacy. -/
theorem transform_memo_hit (fromId : String) (st : SynapseState) (signal : Signal)
    (chatResult : ChatOutcome) (tStart tEnd : ℝ) (cached : String)
    (h : List.lookup signal.thought st.synapticMemory = some cached) :
    transform fromId st signal chatResult tStart tEnd =
      ({ st with strength :=
          { st.strength with
              activations := st.strength.activations + 1,
              lastFiring := tEnd,
              confidence := calculateConfidence (st.strength.activations + 1)
                st.strength.efficacy } },
       { signal with thought := cached, emittedBy := fromId }, false) := by
  unfold transform
  rw [h]

/-- C3 witness: a concrete memo-cache hit, evaluated. -/
theorem transform_memo_hit_witness :
    transform "alice" ⟨⟨0.6, 3, 0.9, 0.7, 12, 5⟩, [("hello", "salut")]⟩
        ⟨"sig1", "hello", "bob", [1], 0, none, none⟩ .failure 100 101 =
      (⟨⟨0.6, 4, 0.9, calculateConfidence 4 0.9, 12, 101⟩, [("hello", "salut")]⟩,
       ⟨"sig1", "salut", "alice", [1], 0, none, none⟩, false) :=
  transform_memo_hit "alice" ⟨⟨0.6, 3, 0.9, 0.7, 12, 5⟩, [("hello", "salut")]⟩
    ⟨"sig1", "hello", "bob", [1], 0, none, none⟩ .failure 100 101 "salut" rfl

/-- C6: For every synapse, when the backend transformation call fails,
`transform` increments the activation count, updates the efficacy running
mean using `0` instead of `1`, recomputes the confidence, and returns the
original untransformed signal instead of throwing (the function is total
and the memo cache and all other strength fields are untouched). -/
theorem transform_failure_passthrough (fromId : String) (st : SynapseState)
    (signal : Signal) (tStart tEnd : ℝ)
    (h : List.lookup signal.thought st.synapticMemory = none) :
    transform fromId st signal .failure tStart tEnd =
      ({ st with strength :=
          { st.strength with
              activations := st.strength.activations + 1,
              efficacy := (st.strength.efficacy * (((st.strength.activations + 1 : ℕ) : ℝ) - 1) + 0.0) /
                ((st.strength.activations + 1 : ℕ) : ℝ),
              confidence := calculateConfidence (st.strength.activations + 1)
                ((st.strength.efficacy * (((st.strength.activations + 1 : ℕ) : ℝ) - 1) + 0.0) /
                  ((st.strength.activations + 1 : ℕ) : ℝ)) } },
       signal, true) := by
  unfold transform
  rw [h]

/-- C6 witness: a concrete failed backend call degrades to pass-through. -/
theorem transform_failure_passthrough_witness :
    transform "alice" ⟨⟨0.6, 0, 1, 0, 0, 0⟩, []⟩
        ⟨"sig1", "hello", "bob", [1], 0, none, none⟩ .failure 100 107 =
      (⟨⟨0.6, 1, (1 * (((1 : ℕ) : ℝ) - 1) + 0.0) / ((1 : ℕ) : ℝ),
          calculateConfidence 1 ((1 * (((1 : ℕ) : ℝ) - 1) + 0.0) / ((1 : ℕ) : ℝ)), 0, 0⟩, []⟩,
       ⟨"sig1", "hello", "bob", [1], 0, none, none⟩, true) :=
  transform_failure_passthrough "alice" ⟨⟨0.6, 0, 1, 0, 0, 0⟩, []⟩
    ⟨"sig1", "hello", "bob", [1], 0, none, none⟩ 100 107 rfl

theorem sigmoid_nonneg (x : ℝ) : 0 ≤ sigmoid x := by
  unfold sigmoid
  positivity

theorem sigmoid_mono : Monotone sigmoid := by
  intro x y hxy
  unfold sigmoid
  have hexp : Real.exp (-y) ≤ Real.exp (-x) := Real.exp_le_exp.mpr (neg_le_neg hxy)
  have hpos : 0 < 1 + Real.exp (-y) := by positivity
  exact one_div_le_one_div_of_le hpos (by linarith)

/-- C7 counterexample: with efficacy `0` — a reachable state, produced by a
first failed transmission — `getWeight` is constant `0`, hence not strictly
increasing in the activation count, refuting the claim as stated for the
fixed efficacy value `0`. -/
theorem getWeight_not_strictMono :
    ¬ StrictMono (fun n : ℕ => getWeight ⟨0.6, n, 0, 0, 0, 0⟩) := by
  intro hsm
  have h01 := hsm (show (0 : ℕ) < 1 by norm_num)
  simp [getWeight] at h01

/-- C7 (amended): for every fixed nonnegative efficacy the synapse
confidence is non-decreasing in the activation count, and `getWeight` is
strictly increasing in the activation count whenever the product of base
similarity and efficacy is positive (in particular whenever both are
positive, which excludes the degenerate efficacy-zero state of the
counterexample). -/
theorem confidence_mono_and_getWeight_strictMono :
    (∀ e : ℝ, 0 ≤ e → Monotone (fun n : ℕ => calculateConfidence n e)) ∧
    (∀ s : SynapticStrength, 0 < s.baseSimilarity * s.efficacy →
      StrictMono (fun n : ℕ => getWeight { s with activations := n })) := by
  constructor
  · intro e he a b hab
    show calculateConfidence a e ≤ calculateConfidence b e
    unfold calculateConfidence
    rcases Nat.eq_zero_or_pos a with ha | ha
    · subst ha
      rw [if_pos rfl]
      split
      · exact le_refl 0
      · exact mul_nonneg (sigmoid_nonneg _) he
    · have hb : b ≠ 0 := (lt_of_lt_of_le ha hab).ne'
      rw [if_neg ha.ne', if_neg hb]
      refine mul_le_mul_of_nonneg_right (sigmoid_mono (sub_le_sub_right ?_ 2)) he
      have : ((a : ℝ)) + 1 ≤ (b : ℝ) + 1 := by
        have := Nat.cast_le (α := ℝ) |>.mpr hab
        linarith
      exact Real.log_le_log (by positivity) this
  · intro s hs a b hab
    show getWeight { s with activations := a } < getWeight { s with activations := b }
    unfold getWeight
    simp only
    have hlog : Real.log ((a : ℝ) + 1) < Real.log ((b : ℝ) + 1) := by
      apply Real.log_lt_log (by positivity)
      have := Nat.cast_lt (α := ℝ) |>.mpr hab
      linarith
    calc s.baseSimilarity * (1 + Real.log ((a : ℝ) + 1)) * s.efficacy
        = (s.baseSimilarity * s.efficacy) * (1 + Real.log ((a : ℝ) + 1)) := by ring
      _ < (s.baseSimilarity * s.efficacy) * (1 + Real.log ((b : ℝ) + 1)) := by
          exact mul_lt_mul_of_pos_left (by linarith) hs
      _ = s.baseSimilarity * (1 + Real.log ((b : ℝ) + 1)) * s.efficacy := by ring

/-- C7 witness: the amended claim applied at efficacy `1` and at a strength
with positive base similarity and efficacy. -/
theorem confidence_mono_and_getWeight_strictMono_witness :
    Monotone (fun n : ℕ => calculateConfidence n 1) ∧
    StrictMono (fun n : ℕ => getWeight ⟨0.6, n, 1, 0, 0, 0⟩) :=
  ⟨confidence_mono_and_getWeight_strictMono.1 1 (by norm_num),
   confidence_mono_and_getWeight_strictMono.2
     ⟨0.6, 0, 1, 0, 0, 0⟩ (by norm_num)⟩

/-! ## `biosphere.ts`: the semantic router

Modelled without the optional spawner/environment/observer collaborators
(none of the claims depend on them; with no spawner configured the
auto-seed branch of `inject` and the spawn paths are no-ops in the source).
The registry and the receptor cache are JS `Map`s; `embed` is the backend
embedding oracle. -/

/-- An organic agent as the router sees it: id, name and receptor field
(the private perception log lives inside the agent, not in the router). -/
structure AgentRec where
  id : String
  name : String
  receptorField : ReceptorField

/-- Router-owned state: agent registry (id to agent, insertion-ordered),
append-only signal history, receptor-embedding cache. -/
structure BioState where
  agents : List (String × AgentRec)
  signalHistory : List Signal
  receptorFieldCache : List (String × List ℝ)

/-- `Array.from(this.agents.values())`. -/
def registryValues (st : BioState) : List AgentRec := st.agents.map Prod.snd

/-- `birth`: register the agent, embed the joined receptor patterns and
cache the embedding. -/
def birth (embed : String → List ℝ) (st : BioState) (agent : AgentRec) : BioState :=
  let receptorText := String.intercalate ". " agent.receptorField.patterns
  let receptorVector := embed receptorText
  { st with agents := mapSet st.agents agent.id agent,
            receptorFieldCache := mapSet st.receptorFieldCache agent.id receptorVector }

/-- `death`: remove the registry entry and the cache entry. -/
def death (st : BioState) (agentId : String) : BioState :=
  { st with agents := mapDelete st.agents agentId,
            receptorFieldCache := mapDelete st.receptorFieldCache agentId }

/-- The outcome of `propagateToReceiver` for one candidate recipient:
deliver untouched, deliver through the synaptic transform, spawn a bridge
agent (no delivery), drop, or skip because no receptor embedding is
cached. -/
inductive RouteAction where
  | skipNoReceptor
  | deliverDirect
  | deliverViaSynapse
  | spawnBridge
  | drop
deriving DecidableEq

/-- `propagateToReceiver`: recompute the cosine similarity between the
signal pheromone and the cached receptor embedding of the recipient, then
apply the three-tier coupling rule with strict thresholds. -/
def propagateToReceiver (st : BioState) (signal : Signal) (receiver : AgentRec) :
    RouteAction :=
  match List.lookup receiver.id st.receptorFieldCache with
  | none => .skipNoReceptor
  | some receiverVector =>
    let similarity := cosineSimilarity signal.pheromone receiverVector
    if similarity > 0.8 then .deliverDirect
    else if similarity > 0.5 then .deliverViaSynapse
    else if similarity > 0.3 then .spawnBridge
    else .drop

/-- The resonance loop of `findResonance`: every live agent other than the
author whose cached receptor embedding resonates (agents with no cached
embedding are skipped with a warning).  The strict cosine may throw. -/
def resonantReceivers (st : BioState) (pheromone : List ℝ) (emittedBy : String) :
    List AgentRec → Except String (List AgentRec)
  | [] => .ok []
  | agent :: rest =>
    if agent.id = emittedBy then resonantReceivers st pheromone emittedBy rest
    else
      match List.lookup agent.id st.receptorFieldCache with
      | none => resonantReceivers st pheromone emittedBy rest
      | some receptorVector =>
        match resonates pheromone agent.receptorField receptorVector with
        | .error e => .error e
        | .ok r =>
          match resonantReceivers st pheromone emittedBy rest with
          | .error e => .error e
          | .ok receivers => .ok (if r then agent :: receivers else receivers)

/-- The ambient-awareness fallback of `findResonance`: all other agents
with lenient cosine similarity above `0.4`, sorted by similarity
descending (stable, as JS sort), first three. -/
def ambientReceivers (st : BioState) (pheromone : List ℝ) (emittedBy : String) :
    List AgentRec :=
  let candidates := (registryValues st).filterMap fun agent =>
    if agent.id = emittedBy then none
    else
      match List.lookup agent.id st.receptorFieldCache with
      | none => none
      | some receptorVector =>
        let similarity := cosineSimilarity pheromone receptorVector
        if similarity > 0.4 then some (agent, similarity) else none
  ((candidates.mergeSort fun x y => decide (y.2 ≤ x.2)).take 3).map Prod.fst

/-- `findResonance`: the resonance loop, falling back to ambient awareness
when no agent resonates. -/
def findResonance (st : BioState) (signal : Signal) : Except String (List AgentRec) :=
  match resonantReceivers st signal.pheromone signal.emittedBy (registryValues st) with
  | .error e => .error e
  | .ok receivers =>
    .ok (if receivers.isEmpty then ambientReceivers st signal.pheromone signal.emittedBy
         else receivers)

/-- `inject`: embed the thought, append the signal to the history, resolve
receivers, and replace the resolved set with every other live agent when
the author is a reserved sentinel or the set is empty.  `sigId` and `now`
stand for the `generateId()` and `Date.now()` readings of `createSignal`.
Returns the new state and the list of (recipient id, perceived signal)
deliveries. -/
def inject (embed : String → List ℝ) (st : BioState) (thought sourceId sigId : String)
    (now : ℝ) : Except String (BioState × List (String × Signal)) :=
  let pheromone := embed thought
  let signal : Signal :=
    { id := sigId, thought := thought, emittedBy := sourceId,
      pheromone := pheromone, timestamp := now }
  let st1 := { st with signalHistory := st.signalHistory ++ [signal] }
  match findResonance st1 signal with
  | .error e => .error e
  | .ok resonantSet =>
    let isExternal := sourceId = "external" ∨ sourceId = "system"
    let receivers :=
      if isExternal ∨ resonantSet.isEmpty then
        (registryValues st1).filter (fun agent => agent.id ≠ sourceId)
      else resonantSet
    .ok (st1, receivers.map fun agent => (agent.id, signal))

/-! ### Association-list lemmas for the JS map model -/

theorem lookup_none_any_beq_false {α : Type} {k : String} :
    ∀ {m : List (String × α)}, List.lookup k m = none →
      m.any (fun p => p.1 == k) = false := by
  intro m
  induction m with
  | nil => intro _; rfl
  | cons p ps ih =>
    intro h
    rw [List.lookup_cons] at h
    cases hbeq : (k == p.1) with
    | true => rw [hbeq] at h; exact absurd h (by simp)
    | false =>
      rw [hbeq] at h
      have hk : k ≠ p.1 := by simpa using hbeq
      have := ih h
      simp only [List.any_cons, this, Bool.or_false]
      simpa using fun he => hk he.symm

theorem lookup_none_keys_ne {α : Type} {k : String} :
    ∀ {m : List (String × α)}, List.lookup k m = none →
      ∀ p ∈ m, p.1 ≠ k := by
  intro m
  induction m with
  | nil => intro _ p hp; exact absurd hp (List.not_mem_nil p)
  | cons q qs ih =>
    intro h p hp
    rw [List.lookup_cons] at h
    cases hbeq : (k == q.1) with
    | true => rw [hbeq] at h; exact absurd h (by simp)
    | false =>
      rw [hbeq] at h
      have hk : k ≠ q.1 := by simpa using hbeq
      rcases List.mem_cons.mp hp with rfl | hp2
      · exact fun he => hk he.symm
      · exact ih h p hp2

theorem mapSet_fresh {α : Type} {m : List (String × α)} {k : String} (v : α)
    (h : List.lookup k m = none) : mapSet m k v = m ++ [(k, v)] := by
  unfold mapSet
  rw [lookup_none_any_beq_false h]
  simp

theorem mapDelete_fresh {α : Type} {m : List (String × α)} {k : String}
    (h : List.lookup k m = none) : mapDelete m k = m := by
  unfold mapDelete
  exact List.filter_eq_self.mpr fun p hp => by
    simpa using lookup_none_keys_ne h p hp

theorem lookup_mapDelete_self {α : Type} (m : List (String × α)) (k : String) :
    List.lookup k (mapDelete m k) = none := by
  induction m with
  | nil => rfl
  | cons p ps ih =>
    unfold mapDelete
    rw [List.filter_cons]
    split
    · next hcond =>
      have hne : p.1 ≠ k := by simpa using hcond
      have hbeq : (k == p.1) = false := by simpa using fun he : k = p.1 => hne he.symm
      rw [List.lookup_cons, hbeq]
      exact ih
    · exact ih

/-! ## Claims about the router (C1, C4, C8) -/

/-- C1: for every candidate recipient whose receptor embedding is cached,
`propagateToReceiver` recomputes the cosine similarity between the signal
pheromone and the cached embedding and applies strict thresholds, boundary
values falling to the weaker tier: above `0.8` direct delivery, in
`(0.5, 0.8]` the synaptic transform, in `(0.3, 0.5]` bridge spawning with
no delivery, and at or below `0.3` the signal is dropped. -/
theorem propagateToReceiver_tiers (st : BioState) (signal : Signal)
    (receiver : AgentRec) (receiverVector : List ℝ)
    (hcache : List.lookup receiver.id st.receptorFieldCache = some receiverVector) :
    (0.8 < cosineSimilarity signal.pheromone receiverVector →
      propagateToReceiver st signal receiver = .deliverDirect) ∧
    (0.5 < cosineSimilarity signal.pheromone receiverVector ∧
        cosineSimilarity signal.pheromone receiverVector ≤ 0.8 →
      propagateToReceiver st signal receiver = .deliverViaSynapse) ∧
    (0.3 < cosineSimilarity signal.pheromone receiverVector ∧
        cosineSimilarity signal.pheromone receiverVector ≤ 0.5 →
      propagateToReceiver st signal receiver = .spawnBridge) ∧
    (cosineSimilarity signal.pheromone receiverVector ≤ 0.3 →
      propagateToReceiver st signal receiver = .drop) := by
  unfold propagateToReceiver
  rw [hcache]
  simp only
  refine ⟨fun h => ?_, fun h => ?_, fun h => ?_, fun h => ?_⟩
  · rw [if_pos h]
  · rw [if_neg (not_lt.mpr h.2), if_pos h.1]
  · rw [if_neg (not_lt.mpr (h.2.trans (by norm_num))), if_neg (not_lt.mpr h.2),
      if_pos h.1]
  · rw [if_neg (not_lt.mpr (h.trans (by norm_num))),
      if_neg (not_lt.mpr (h.trans (by norm_num))), if_neg (not_lt.mpr h)]

theorem cosineCore_two (x1 x2 y1 y2 : ℝ) :
    cosineCore [x1, x2] [y1, y2] =
      if Real.sqrt (x1 * x1 + x2 * x2) * Real.sqrt (y1 * y1 + y2 * y2) = 0 then 0
      else (x1 * y1 + x2 * y2) /
        (Real.sqrt (x1 * x1 + x2 * x2) * Real.sqrt (y1 * y1 + y2 * y2)) := by
  unfold cosineCore
  norm_num

theorem cosineSimilarity_two (x1 x2 y1 y2 : ℝ) :
    cosineSimilarity [x1, x2] [y1, y2] =
      if Real.sqrt (x1 * x1 + x2 * x2) * Real.sqrt (y1 * y1 + y2 * y2) = 0 then 0
      else (x1 * y1 + x2 * y2) /
        (Real.sqrt (x1 * x1 + x2 * x2) * Real.sqrt (y1 * y1 + y2 * y2)) := by
  unfold cosineSimilarity
  rw [if_neg (by norm_num)]
  exact cosineCore_two x1 x2 y1 y2

theorem sqrt_twentyfive : Real.sqrt 25 = 5 := by
  rw [show (25 : ℝ) = 5 ^ 2 by norm_num]
  exact Real.sqrt_sq (by norm_num)

theorem sqrt_four : Real.sqrt 4 = 2 := by
  rw [show (4 : ℝ) = 2 ^ 2 by norm_num]
  exact Real.sqrt_sq (by norm_num)

theorem sqrt_hundred : Real.sqrt 100 = 10 := by
  rw [show (100 : ℝ) = 10 ^ 2 by norm_num]
  exact Real.sqrt_sq (by norm_num)

theorem cos_four_three : cosineSimilarity [(1 : ℝ), 0] [4, 3] = 4 / 5 := by
  rw [cosineSimilarity_two,
    show (1 * 1 + 0 * 0 : ℝ) = 1 by norm_num,
    show (4 * 4 + 3 * 3 : ℝ) = 25 by norm_num, Real.sqrt_one, sqrt_twentyfive]
  norm_num

theorem cos_one_sqrt_three : cosineSimilarity [(1 : ℝ), 0] [1, Real.sqrt 3] = 1 / 2 := by
  rw [cosineSimilarity_two,
    show (1 * 1 + 0 * 0 : ℝ) = 1 by norm_num,
    show (1 * 1 + Real.sqrt 3 * Real.sqrt 3 : ℝ) = 4 by
      rw [Real.mul_self_sqrt (by norm_num : (0 : ℝ) ≤ 3)]; norm_num,
    Real.sqrt_one, sqrt_four]
  norm_num

theorem cos_three_sqrt_ninetyone :
    cosineSimilarity [(1 : ℝ), 0] [3, Real.sqrt 91] = 3 / 10 := by
  rw [cosineSimilarity_two,
    show (1 * 1 + 0 * 0 : ℝ) = 1 by norm_num,
    show (3 * 3 + Real.sqrt 91 * Real.sqrt 91 : ℝ) = 100 by
      rw [Real.mul_self_sqrt (by norm_num : (0 : ℝ) ≤ 91)]; norm_num,
    Real.sqrt_one, sqrt_hundred]
  norm_num

/-- C1 witness: the three boundary similarities — exactly `0.8`, exactly
`0.5` and exactly `0.3` — fall to the synaptic, bridge and drop tier
respectively. -/
theorem propagateToReceiver_tiers_witness :
    propagateToReceiver ⟨[], [], [("r1", [4, 3])]⟩
        ⟨"sig", "t", "src", [1, 0], 0, none, none⟩ ⟨"r1", "R1", ⟨[], none⟩⟩ =
      .deliverViaSynapse ∧
    propagateToReceiver ⟨[], [], [("r2", [1, Real.sqrt 3])]⟩
        ⟨"sig", "t", "src", [1, 0], 0, none, none⟩ ⟨"r2", "R2", ⟨[], none⟩⟩ =
      .spawnBridge ∧
    propagateToReceiver ⟨[], [], [("r3", [3, Real.sqrt 91])]⟩
        ⟨"sig", "t", "src", [1, 0], 0, none, none⟩ ⟨"r3", "R3", ⟨[], none⟩⟩ =
      .drop := by
  refine ⟨?_, ?_, ?_⟩
  · refine (propagateToReceiver_tiers ⟨[], [], [("r1", [4, 3])]⟩
      ⟨"sig", "t", "src", [1, 0], 0, none, none⟩ ⟨"r1", "R1", ⟨[], none⟩⟩
      [4, 3] rfl).2.1 ?_
    show 0.5 < cosineSimilarity [(1 : ℝ), 0] [4, 3] ∧
      cosineSimilarity [(1 : ℝ), 0] [4, 3] ≤ 0.8
    rw [cos_four_three]
    norm_num
  · refine (propagateToReceiver_tiers ⟨[], [], [("r2", [1, Real.sqrt 3])]⟩
      ⟨"sig", "t", "src", [1, 0], 0, none, none⟩ ⟨"r2", "R2", ⟨[], none⟩⟩
      [1, Real.sqrt 3] rfl).2.2.1 ?_
    show 0.3 < cosineSimilarity [(1 : ℝ), 0] [1, Real.sqrt 3] ∧
      cosineSimilarity [(1 : ℝ), 0] [1, Real.sqrt 3] ≤ 0.5
    rw [cos_one_sqrt_three]
    norm_num
  · refine (propagateToReceiver_tiers ⟨[], [], [("r3", [3, Real.sqrt 91])]⟩
      ⟨"sig", "t", "src", [1, 0], 0, none, none⟩ ⟨"r3", "R3", ⟨[], none⟩⟩
      [3, Real.sqrt 91] rfl).2.2.2 ?_
    show cosineSimilarity [(1 : ℝ), 0] [3, Real.sqrt 91] ≤ 0.3
    rw [cos_three_sqrt_ninetyone]
    norm_num
/-- C4: for every signal injected with author `"external"`, whatever set the
resonance test resolves — including the empty set, and overriding the
ambient-awareness fallback baked into `findResonance` — the resolved
recipient set is replaced with every live agent other than the author, and
the signal is delivered to each of them. -/
theorem inject_external_broadcast (embed : String → List ℝ) (st : BioState)
    (thought sigId : String) (now : ℝ) (signal : Signal)
    (resonantSet : List AgentRec)
    (hsig : signal = ⟨sigId, thought, "external", embed thought, now, none, none⟩)
    (hres : findResonance { st with signalHistory := st.signalHistory ++ [signal] }
      signal = .ok resonantSet) :
    inject embed st thought "external" sigId now =
      .ok ({ st with signalHistory := st.signalHistory ++ [signal] },
           ((registryValues st).filter (fun agent => agent.id ≠ "external")).map
             fun agent => (agent.id, signal)) := by
  subst hsig
  unfold inject
  simp only
  rw [hres]
  dsimp only
  rw [if_pos (Or.inl (Or.inl trivial))]
  simp [registryValues]

/-- C4 witness: one live agent that neither resonates (similarity `0`) nor
passes the ambient threshold, so the resonance test yields zero recipients;
the external injection is still delivered to it. -/
theorem inject_external_broadcast_witness :
    inject (fun _ => [1, 0]) ⟨[("a1", ⟨"a1", "A", ⟨[], none⟩⟩)], [], [("a1", [0, 1])]⟩
        "hello" "external" "sigX" 0 =
      .ok (⟨[("a1", ⟨"a1", "A", ⟨[], none⟩⟩)],
            [⟨"sigX", "hello", "external", [1, 0], 0, none, none⟩],
            [("a1", [0, 1])]⟩,
           [("a1", ⟨"sigX", "hello", "external", [1, 0], 0, none, none⟩)]) := by
  have hcos : cosineCore [(1 : ℝ), 0] [0, 1] = 0 := by
    rw [cosineCore_two]
    norm_num
  have hreson : resonates [(1 : ℝ), 0] ⟨[], none⟩ [0, 1] = .ok false := by
    unfold resonates strictCosineSimilarity
    rw [if_neg (by norm_num)]
    simp only [Option.getD_none, hcos]
    norm_num
  have hres : findResonance
      ⟨[("a1", ⟨"a1", "A", ⟨[], none⟩⟩)],
        [⟨"sigX", "hello", "external", [1, 0], 0, none, none⟩],
        [("a1", [0, 1])]⟩
      ⟨"sigX", "hello", "external", [1, 0], 0, none, none⟩ = .ok [] := by
    have hsim : cosineSimilarity [(1 : ℝ), 0] [0, 1] = 0 := by
      unfold cosineSimilarity
      rw [if_neg (by norm_num)]
      exact hcos
    have hloop : resonantReceivers
        ⟨[("a1", ⟨"a1", "A", ⟨[], none⟩⟩)],
          [⟨"sigX", "hello", "external", [1, 0], 0, none, none⟩],
          [("a1", [0, 1])]⟩ [1, 0] "external" [⟨"a1", "A", ⟨[], none⟩⟩] = .ok [] := by
      unfold resonantReceivers
      rw [if_neg (show ¬ ("a1" : String) = "external" by decide)]
      simp only [List.lookup]
      rw [show (("a1" : String) == "a1") = true from by decide]
      simp only [hreson]
      unfold resonantReceivers
      simp
    have hamb : ambientReceivers
        ⟨[("a1", ⟨"a1", "A", ⟨[], none⟩⟩)],
          [⟨"sigX", "hello", "external", [1, 0], 0, none, none⟩],
          [("a1", [0, 1])]⟩ [1, 0] "external" = [] := by
      unfold ambientReceivers registryValues
      simp only [List.map, List.filterMap]
      rw [if_neg (show ¬ ("a1" : String) = "external" by decide)]
      simp only [List.lookup]
      rw [show (("a1" : String) == "a1") = true from by decide]
      simp only [hsim]
      rw [if_neg (by norm_num : ¬ ((0.4 : ℝ) < 0))]
      simp
    unfold findResonance
    simp only [registryValues, List.map]
    rw [hloop]
    simp only [List.isEmpty_nil, if_true, hamb]
  exact inject_external_broadcast (fun _ => [1, 0])
    ⟨[("a1", ⟨"a1", "A", ⟨[], none⟩⟩)], [], [("a1", [0, 1])]⟩
    "hello" "sigX" 0 ⟨"sigX", "hello", "external", [1, 0], 0, none, none⟩ [] rfl hres

/-- C8 counterexample: the claim quantifies over every agent, but when an
agent with the same id is already registered, `birth` overwrites the
registry entry in place (JS `Map.set`) and `death` then removes it
entirely, so the pre-birth registry is not restored.  Concretely: the
registry holds agent `"a"` named `"Old"`; birthing an agent `"a"` named
`"New"` and then killing `"a"` leaves an empty registry instead of the
original one. -/
theorem birth_death_not_restoring :
    death (birth (fun _ => [2]) ⟨[("a", ⟨"a", "Old", ⟨[], none⟩⟩)], [], [("a", [1])]⟩
        ⟨"a", "New", ⟨[], none⟩⟩) "a" ≠
      ⟨[("a", ⟨"a", "Old", ⟨[], none⟩⟩)], [], [("a", [1])]⟩ := by
  intro h
  have := congrArg BioState.agents h
  simp [birth, death, mapSet, mapDelete] at this

/-- C8 (amended): for every agent whose id is not already present in the
registry nor in the receptor cache, `birth(agent)` followed by
`death(agent.id)` restores both the registry and the receptor-embedding
cache exactly to their pre-birth state (the whole router state is equal);
and `death` removes the registry entry and the cache entry atomically: for
every state and id, after `death` neither map contains the id. -/
theorem birth_then_death_restores (embed : String → List ℝ) (st : BioState)
    (agent : AgentRec)
    (h1 : List.lookup agent.id st.agents = none)
    (h2 : List.lookup agent.id st.receptorFieldCache = none) :
    death (birth embed st agent) agent.id = st ∧
    ∀ (st2 : BioState) (agentId : String),
      List.lookup agentId (death st2 agentId).agents = none ∧
      List.lookup agentId (death st2 agentId).receptorFieldCache = none := by
  constructor
  · unfold birth death
    simp only
    rw [mapSet_fresh _ h1, mapSet_fresh _ h2]
    unfold mapDelete
    rw [List.filter_append, List.filter_append]
    have hsing : ∀ (β : Type) (v : β),
        List.filter (fun p => decide (¬ p.1 = agent.id)) [(agent.id, v)] = [] := by
      intro β v
      simp
    rw [hsing _ agent, hsing _ (embed (String.intercalate ". " agent.receptorField.patterns))]
    have hag : List.filter (fun p => decide (¬ p.1 = agent.id)) st.agents = st.agents :=
      List.filter_eq_self.mpr fun p hp => by simpa using lookup_none_keys_ne h1 p hp
    have hca : List.filter (fun p => decide (¬ p.1 = agent.id)) st.receptorFieldCache =
        st.receptorFieldCache :=
      List.filter_eq_self.mpr fun p hp => by simpa using lookup_none_keys_ne h2 p hp
    rw [List.append_nil, List.append_nil, hag, hca]
  · intro st2 agentId
    exact ⟨lookup_mapDelete_self st2.agents agentId,
      lookup_mapDelete_self st2.receptorFieldCache agentId⟩

/-- C8 witness: a fresh agent born into a biosphere that does not know its
id, then killed; registry and cache are exactly the originals, and after
any death neither map contains the removed id. -/
theorem birth_then_death_restores_witness :
    death (birth (fun _ => [2]) ⟨[("a", ⟨"a", "Old", ⟨[], none⟩⟩)], [], [("a", [1])]⟩
        ⟨"b", "Fresh", ⟨[], none⟩⟩) "b" =
      ⟨[("a", ⟨"a", "Old", ⟨[], none⟩⟩)], [], [("a", [1])]⟩ ∧
    List.lookup "a" (death ⟨[("a", ⟨"a", "Old", ⟨[], none⟩⟩)], [], [("a", [1])]⟩
      "a").agents = none :=
  ⟨(birth_then_death_restores (fun _ => [2])
      ⟨[("a", ⟨"a", "Old", ⟨[], none⟩⟩)], [], [("a", [1])]⟩
      ⟨"b", "Fresh", ⟨[], none⟩⟩ rfl rfl).1,
   ((birth_then_death_restores (fun _ => [2])
      ⟨[("a", ⟨"a", "Old", ⟨[], none⟩⟩)], [], [("a", [1])]⟩
      ⟨"b", "Fresh", ⟨[], none⟩⟩ rfl rfl).2
      ⟨[("a", ⟨"a", "Old", ⟨[], none⟩⟩)], [], [("a", [1])]⟩ "a").1⟩

/-! ## `equilibrium-detector.ts`

The backend is a pure oracle (`embed`, `chat`); each detector function
returns, next to its value, the list of texts it passed to `embed`, in call
order, so the claims about embedding-call counts are statable.  The
human-readable `reasoning` string (observability only) is not modelled. -/

/-- The LLM collaborator of the detector. -/
structure DetectorLLM where
  embed : String → List ℝ
  chat : List (String × String) → String

/-- Detector configuration (constructor defaults of the source). -/
structure DetectorConfig where
  minSignalWindow : ℕ := 5
  minTicks : ℕ := 5
  tensionThreshold : ℝ := 0.3
  momentumThreshold : ℝ := 0.2
  coherenceThreshold : ℝ := 0.7
  clarityThreshold : ℝ := 0.6

/-- One entry of the trailing stagnation window. -/
structure StagnationEntry where
  tick : ℕ
  tension : ℝ
  coherence : ℝ
  clarity : ℝ

/-- Mutable detector state: per-scenario ideal-state embedding cache,
invocation counter, trailing stagnation window. -/
structure DetectorState where
  idealStateCache : List (String × List ℝ)
  currentTick : ℕ
  stagnationHistory : List StagnationEntry

/-- `signalWindowSize = 10`. -/
def signalWindowSize : ℕ := 10

/-- `stagnationWindowSize = 5`. -/
def stagnationWindowSize : ℕ := 5

/-- The detector result (without the observability-only reasoning text). -/
structure EquilibriumState where
  atEquilibrium : Bool
  goalTension : ℝ
  momentum : ℝ
  coherence : ℝ
  decisionClarity : ℝ
  isStagnant : Bool

/-- System prompt of `extractIdealState`. -/
def idealStatePrompt : String :=
  String.intercalate "\n"
    ["You extract the IDEAL END STATE from a scenario.",
     "",
     "Given a problem/scenario, describe what a SATISFIED state looks like:",
     "- What would it mean for this problem to be \"resolved\"?",
     "- What outcome would reduce the tension to zero?",
     "- What does \"finished thinking\" look like?",
     "",
     "Be specific but concise (1-2 sentences)."]

/-- `extractIdealState`: on a cache hit return the original scenario text
with no backend call (the cached embedding is read into a local and
discarded by the source); on a miss ask the backend for the ideal state,
embed the response, cache the embedding under the scenario and return the
response. -/
def extractIdealState (llm : DetectorLLM) (st : DetectorState) (scen : String) :
    DetectorState × String × List String :=
  if (List.lookup scen st.idealStateCache).isSome then (st, scen, [])
  else
    let response := llm.chat
      [("system", idealStatePrompt),
       ("user", "Scenario: " ++ scen ++
         "\n\nWhat is the ideal end state that would satisfy this problem?")]
    let embedding := llm.embed response
    ({ st with idealStateCache := mapSet st.idealStateCache scen embedding },
     response, [response])

/-- `measureGoalTension`: embed the ideal state and the concatenated recent
thoughts, tension is the clamped cosine distance. -/
def measureGoalTension (llm : DetectorLLM) (idealState : String)
    (recentSignals : List Signal) : ℝ × List String :=
  if recentSignals.isEmpty then (1.0, [])
  else
    let idealEmbedding := llm.embed idealState
    let currentStateText := String.intercalate " " (recentSignals.map (·.thought))
    let currentEmbedding := llm.embed currentStateText
    let similarity := cosineSimilarity idealEmbedding currentEmbedding
    let tension := 1 - similarity
    (clamp01 tension, [idealState, currentStateText])

/-- `measureMomentum`: compare the signal counts of the two half windows of
the full history (`recentSignals` is accepted but unused, as in the
source). -/
def measureMomentum (cfg : DetectorConfig) (allSignals recentSignals : List Signal) : ℝ :=
  if allSignals.length < cfg.minSignalWindow * 2 then 1.0
  else
    let windowSize := allSignals.length / 2
    let recentWindow := jsSlice allSignals (-(windowSize : ℤ)) none
    let previousWindow :=
      jsSlice allSignals (-(windowSize : ℤ) * 2) (some (-(windowSize : ℤ)))
    let recentCount := recentWindow.length
    let previousCount := previousWindow.length
    let rawMomentum :=
      if 0 < previousCount then (recentCount : ℝ) / (previousCount : ℝ) else 1.0
    let momentum := min rawMomentum 2.0 / 2.0
    clamp01 momentum

/-- All ordered pairwise cosine similarities of a list of pheromones (the
nested loop of `measureCoherence`; the falsy-pheromone `continue` of the
source never fires since arrays are always truthy). -/
def pairSims : List (List ℝ) → List ℝ
  | [] => []
  | p :: rest => rest.map (fun q => cosineSimilarity p q) ++ pairSims rest

/-- `measureCoherence`: clamped mean pairwise similarity of the recent
signals, `0` below two signals. -/
def measureCoherence (recentSignals : List Signal) : ℝ :=
  if recentSignals.length < 2 then 0.0
  else
    let sims := pairSims (recentSignals.map (·.pheromone))
    let totalSimilarity := sims.sum
    let pairCount := sims.length
    let avgCoherence := if 0 < pairCount then totalSimilarity / (pairCount : ℝ) else 0
    clamp01 avgCoherence

/-- The four decision anchors of `measureDecisionClarity`. -/
def decisionAnchors : List String :=
  ["We have made a final decision and will proceed with this course of action",
   "The conclusion is clear and we agree on the path forward",
   "After careful consideration, we have reached a definitive resolution",
   "The plan is settled and we know exactly what to do next"]

/-- `measureDecisionClarity`: embed the four anchors and take the maximum
cosine similarity between any recent pheromone and any anchor embedding. -/
def measureDecisionClarity (llm : DetectorLLM) (recentSignals : List Signal) :
    ℝ × List String :=
  if recentSignals.isEmpty then (0.0, [])
  else
    let anchorEmbeddings := decisionAnchors.map llm.embed
    let maxClarity := recentSignals.foldl
      (fun m s => anchorEmbeddings.foldl
        (fun m2 anchorEmb => max m2 (cosineSimilarity s.pheromone anchorEmb)) m) 0
    (maxClarity, decisionAnchors)

/-- `calculateEnergy`: the clamped weighted disorder sum. -/
def calculateEnergy (tension momentum coherence clarity : ℝ) : ℝ :=
  clamp01 (0.4 * tension + 0.1 * momentum + 0.3 * (1 - coherence) + 0.2 * (1 - clarity))

/-- `calculateEnergyGradient`: coherence difference between the most recent
third and the preceding third of the history, divided by the window size
(`1.0` below `2 * minSignalWindow` signals).  The only difference from the
source is that a division by a zero window size yields `0` here where JS
produces `NaN`/`Infinity`; the window size is positive whenever the history
has at least three signals. -/
def calculateEnergyGradient (cfg : DetectorConfig) (signals : List Signal) : ℝ :=
  if signals.length < cfg.minSignalWindow * 2 then 1.0
  else
    let windowSize := signals.length / 3
    let recentSignals := jsSlice signals (-(windowSize : ℤ)) none
    let previousSignals :=
      jsSlice signals (-(windowSize : ℤ) * 2) (some (-(windowSize : ℤ)))
    let recentCoherence := measureCoherence recentSignals
    let previousCoherence := measureCoherence previousSignals
    let energyRecent := 1 - recentCoherence
    let energyPrevious := 1 - previousCoherence
    (energyRecent - energyPrevious) / (windowSize : ℝ)

/-- `detectStagnation`: the last five (tick, tension, coherence, clarity)
entries all show tension above `0.7` and all show coherence below `0.3` or
all show clarity below `0.3`. -/
def detectStagnation (hist : List StagnationEntry) : Bool :=
  if hist.length < stagnationWindowSize then false
  else
    let recentHistory := jsSlice hist (-(stagnationWindowSize : ℤ)) none
    let allHighTension := recentHistory.all (fun h => decide (h.tension > 0.7))
    let allLowCoherence := recentHistory.all (fun h => decide (h.coherence < 0.3))
    let allLowClarity := recentHistory.all (fun h => decide (h.clarity < 0.3))
    allHighTension && (allLowCoherence || allLowClarity)

/-- The guard report of `detect` (tension and momentum 1, coherence and
clarity 0, not at equilibrium, not stagnant). -/
def guardReport : EquilibriumState :=
  { atEquilibrium := false, goalTension := 1.0, momentum := 1.0,
    coherence := 0.0, decisionClarity := 0.0, isStagnant := false }

/-- `detect`: increment the invocation counter; below `minSignalWindow`
signals or below `minTicks` invocations return the guard report with zero
backend calls; otherwise extract the ideal state, measure the four
dimensions over the last ten signals, compute energy and gradient, push the
stagnation entry (trailing window of five) and assemble the result.  The
`agents` argument is accepted and unused, as in the source. -/
def detect (cfg : DetectorConfig) (llm : DetectorLLM) (st : DetectorState)
    (scen : String) (signals : List Signal) (agents : List AgentRec) :
    DetectorState × EquilibriumState × List String :=
  let st1 := { st with currentTick := st.currentTick + 1 }
  if signals.length < cfg.minSignalWindow then (st1, guardReport, [])
  else if st1.currentTick < cfg.minTicks then (st1, guardReport, [])
  else
    let ext := extractIdealState llm st1 scen
    let st2 := ext.1
    let idealState := ext.2.1
    let recentSignals := jsSlice signals (-(signalWindowSize : ℤ)) none
    let ten := measureGoalTension llm idealState recentSignals
    let goalTension := ten.1
    let momentum := measureMomentum cfg signals recentSignals
    let coherence := measureCoherence recentSignals
    let cla := measureDecisionClarity llm recentSignals
    let decisionClarity := cla.1
    let energy := calculateEnergy goalTension momentum coherence decisionClarity
    let energyGradient := calculateEnergyGradient cfg signals
    let atEquilibrium := decide (energy < 0.35 ∧ |energyGradient| < 0.1)
    let hist1 := st2.stagnationHistory ++
      [{ tick := st2.currentTick, tension := goalTension,
         coherence := coherence, clarity := decisionClarity }]
    let hist2 := if stagnationWindowSize < hist1.length then hist1.tail else hist1
    let st3 := { st2 with stagnationHistory := hist2 }
    let isStagnant := detectStagnation st3.stagnationHistory
    (st3,
     { atEquilibrium := atEquilibrium, goalTension := goalTension,
       momentum := momentum, coherence := coherence,
       decisionClarity := decisionClarity, isStagnant := isStagnant },
     ext.2.2 ++ ten.2 ++ cla.2)

/-! ### Window arithmetic for `Array.prototype.slice` -/

theorem jsSlice_zero_none {α : Type} (l : List α) : jsSlice l 0 none = l := by
  unfold jsSlice
  dsimp only
  rw [if_neg (by norm_num)]
  rw [min_eq_left (by positivity : (0 : ℤ) ≤ (l.length : ℤ))]
  simp

theorem jsSlice_zero_some_zero {α : Type} (l : List α) : jsSlice l 0 (some 0) = [] := by
  unfold jsSlice
  dsimp only
  rw [if_neg (by norm_num)]
  rw [min_eq_left (by positivity : (0 : ℤ) ≤ (l.length : ℤ))]
  simp

theorem jsSlice_neg_none {α : Type} (l : List α) (w : ℕ) (hw : 0 < w) :
    jsSlice l (-(w : ℤ)) none = l.drop (l.length - w) := by
  unfold jsSlice
  dsimp only
  rw [if_pos (by omega : (-(w : ℤ)) < 0)]
  have hs : (max ((l.length : ℤ) + -(w : ℤ)) 0).toNat = l.length - w := by omega
  rw [hs]
  have he : (((l.length : ℤ)) - (max ((l.length : ℤ) + -(w : ℤ)) 0)).toNat =
      l.length - (l.length - w) := by omega
  rw [he]
  exact List.take_of_length_le (le_of_eq (List.length_drop _ _))

theorem jsSlice_neg_pair {α : Type} (l : List α) (w : ℕ) (hw : 0 < w)
    (hlen : 2 * w ≤ l.length) :
    jsSlice l (-(w : ℤ) * 2) (some (-(w : ℤ))) = (l.drop (l.length - 2 * w)).take w := by
  unfold jsSlice
  dsimp only
  rw [if_pos (by omega : (-(w : ℤ) * 2) < 0)]
  rw [if_pos (by omega : (-(w : ℤ)) < 0)]
  have hs : (max ((l.length : ℤ) + -(w : ℤ) * 2) 0).toNat = l.length - 2 * w := by omega
  rw [hs]
  have he : ((max ((l.length : ℤ) + -(w : ℤ)) 0) -
      (max ((l.length : ℤ) + -(w : ℤ) * 2) 0)).toNat = w := by omega
  rw [he]

theorem getLast?_drop_of_lt {α : Type} :
    ∀ (l : List α) (k : ℕ), k < l.length → (l.drop k).getLast? = l.getLast? := by
  intro l
  induction l with
  | nil => intro k hk; simp at hk
  | cons a as ih =>
    intro k hk
    cases k with
    | zero => rfl
    | succ k2 =>
      rw [List.drop_succ_cons, ih k2 (by simpa using hk)]
      cases as with
      | nil => simp at hk
      | cons b bs => simp

/-! ### Range facts about the measured detector dimensions -/

theorem measureMomentum_nonneg (cfg : DetectorConfig)
    (allSignals recentSignals : List Signal) :
    0 ≤ measureMomentum cfg allSignals recentSignals := by
  unfold measureMomentum
  split
  · norm_num
  · exact clamp01_nonneg _

theorem measureCoherence_le_one (recentSignals : List Signal) :
    measureCoherence recentSignals ≤ 1 := by
  unfold measureCoherence
  split
  · norm_num
  · exact clamp01_le_one _

theorem anchor_foldl_max_le_one (p : List ℝ) :
    ∀ (anchorEmbs : List (List ℝ)) (m : ℝ), m ≤ 1 →
      anchorEmbs.foldl (fun m2 anchorEmb => max m2 (cosineSimilarity p anchorEmb)) m ≤ 1 := by
  intro anchorEmbs
  induction anchorEmbs with
  | nil => intro m hm; exact hm
  | cons a as ih =>
    intro m hm
    exact ih _ (max_le hm (cosineSimilarity_le_one p a))

theorem clarity_foldl_le_one (anchorEmbs : List (List ℝ)) :
    ∀ (signals : List Signal) (m : ℝ), m ≤ 1 →
      signals.foldl
        (fun m s => anchorEmbs.foldl
          (fun m2 anchorEmb => max m2 (cosineSimilarity s.pheromone anchorEmb)) m) m ≤ 1 := by
  intro signals
  induction signals with
  | nil => intro m hm; exact hm
  | cons s ss ih =>
    intro m hm
    exact ih _ (anchor_foldl_max_le_one s.pheromone anchorEmbs m hm)

theorem measureDecisionClarity_fst_le_one (llm : DetectorLLM)
    (recentSignals : List Signal) :
    (measureDecisionClarity llm recentSignals).1 ≤ 1 := by
  unfold measureDecisionClarity
  split
  · norm_num
  · exact clarity_foldl_le_one _ _ _ (by norm_num)

/-! ## Claims about the detector guards and momentum (C5, C10) -/

/-- C5: when the detector is invoked with fewer than `minSignalWindow`
total signals — or when, counting this invocation, fewer than `minTicks`
invocations have occurred — `detect` immediately returns the fixed
not-at-equilibrium report (`atEquilibrium = false`, tension and momentum
`1`, coherence and clarity `0`, `isStagnant = false`), performs zero
backend embedding calls (empty trace), and only increments the invocation
counter. -/
theorem detect_guards (cfg : DetectorConfig) (llm : DetectorLLM) (st : DetectorState)
    (scen : String) (signals : List Signal) (agents : List AgentRec)
    (h : signals.length < cfg.minSignalWindow ∨ st.currentTick + 1 < cfg.minTicks) :
    detect cfg llm st scen signals agents =
      ({ st with currentTick := st.currentTick + 1 }, guardReport, []) := by
  unfold detect
  dsimp only
  by_cases h1 : signals.length < cfg.minSignalWindow
  · rw [if_pos h1]
  · rw [if_neg h1]
    rcases h with h | h
    · exact absurd h h1
    · rw [if_pos h]

/-- C5 witness: default configuration, a single signal (below the
default `minSignalWindow = 5`): the guard report with an empty embed
trace. -/
theorem detect_guards_witness :
    detect {} ⟨fun _ => [1], fun _ => "x"⟩ ⟨[], 0, []⟩ "scn"
        [⟨"s0", "t", "a", [1], 0, none, none⟩] [] =
      (⟨[], 1, []⟩, guardReport, []) :=
  detect_guards {} ⟨fun _ => [1], fun _ => "x"⟩ ⟨[], 0, []⟩ "scn"
    [⟨"s0", "t", "a", [1], 0, none, none⟩] [] (Or.inl (by norm_num))

/-- C10: whenever the signal history holds at least `2 * minSignalWindow`
signals (so the guard passes), `measureMomentum` returns exactly `0.5`:
both comparison windows are slices of length `floor(len / 2)` (when that
length is zero the previous window is empty and the ratio falls back to
`1.0`), so `min(ratio, 2.0) / 2.0 = 0.5`. -/
theorem measureMomentum_half (cfg : DetectorConfig)
    (allSignals recentSignals : List Signal)
    (h : cfg.minSignalWindow * 2 ≤ allSignals.length) :
    measureMomentum cfg allSignals recentSignals = 1 / 2 := by
  unfold measureMomentum
  rw [if_neg (not_lt.mpr h)]
  dsimp only
  by_cases hw0 : allSignals.length / 2 = 0
  · rw [hw0]
    simp only [Nat.cast_zero, neg_zero, zero_mul]
    rw [jsSlice_zero_none, jsSlice_zero_some_zero]
    rw [if_neg (by norm_num)]
    norm_num [clamp01, min_def, max_def]
  · have hwpos : 0 < allSignals.length / 2 := Nat.pos_of_ne_zero hw0
    have h2w : 2 * (allSignals.length / 2) ≤ allSignals.length := by omega
    rw [jsSlice_neg_none _ _ hwpos, jsSlice_neg_pair _ _ hwpos h2w]
    rw [List.length_take, List.length_drop, List.length_drop]
    have e1 : allSignals.length - (allSignals.length - allSignals.length / 2) =
        allSignals.length / 2 := by omega
    have e2 : min (allSignals.length / 2)
        (allSignals.length - (allSignals.length - 2 * (allSignals.length / 2))) =
        allSignals.length / 2 := by omega
    rw [e1, e2]
    rw [if_pos hwpos]
    rw [div_self (by exact_mod_cast hw0 : ((allSignals.length / 2 : ℕ) : ℝ) ≠ 0)]
    norm_num [clamp01, min_def, max_def]

/-- C10 witness: two signals with `minSignalWindow = 1`: the momentum
measure is exactly one half. -/
theorem measureMomentum_half_witness :
    measureMomentum { minSignalWindow := 1 }
      [⟨"s0", "t0", "a", [1], 0, none, none⟩, ⟨"s1", "t1", "a", [1], 0, none, none⟩]
      [] = 1 / 2 :=
  measureMomentum_half { minSignalWindow := 1 }
    [⟨"s0", "t0", "a", [1], 0, none, none⟩, ⟨"s1", "t1", "a", [1], 0, none, none⟩]
    [] (by norm_num)

/-! ## Claim C9: stagnation excludes equilibrium -/

theorem detectStagnation_last (hist : List StagnationEntry) (entry : StagnationEntry)
    (hlast : hist.getLast? = some entry) (h : detectStagnation hist = true) :
    0.7 < entry.tension ∧ (entry.coherence < 0.3 ∨ entry.clarity < 0.3) := by
  unfold detectStagnation at h
  by_cases hlen : hist.length < stagnationWindowSize
  · rw [if_pos hlen] at h
    exact absurd h (by simp)
  · rw [if_neg hlen] at h
    dsimp only at h
    rw [jsSlice_neg_none hist stagnationWindowSize
      (by norm_num [stagnationWindowSize])] at h
    have hmem : entry ∈ hist.drop (hist.length - stagnationWindowSize) := by
      push_neg at hlen
      have hpos : 0 < hist.length := by
        have : (5 : ℕ) ≤ hist.length := by
          simpa [stagnationWindowSize] using hlen
        omega
      have hlt : hist.length - stagnationWindowSize < hist.length := by
        simp only [stagnationWindowSize]
        omega
      have hgl := getLast?_drop_of_lt hist _ hlt
      exact List.mem_of_mem_getLast? (by rw [hgl, hlast]; rfl)
    rw [Bool.and_eq_true, Bool.or_eq_true] at h
    obtain ⟨hT, hOr⟩ := h
    refine ⟨of_decide_eq_true ((List.all_eq_true.mp hT) entry hmem), ?_⟩
    rcases hOr with hC | hCl
    · exact Or.inl (of_decide_eq_true ((List.all_eq_true.mp hC) entry hmem))
    · exact Or.inr (of_decide_eq_true ((List.all_eq_true.mp hCl) entry hmem))

theorem pushed_history_getLast (h0 : List StagnationEntry) (entry : StagnationEntry) :
    (if stagnationWindowSize < (h0 ++ [entry]).length then (h0 ++ [entry]).tail
     else h0 ++ [entry]).getLast? = some entry := by
  split
  · next hlen =>
    cases h0 with
    | nil => simp [stagnationWindowSize] at hlen
    | cons a as =>
      show ((a :: (as ++ [entry])).tail).getLast? = some entry
      rw [List.tail_cons]
      exact List.getLast?_concat as
  · exact List.getLast?_concat h0

theorem calculateEnergy_not_lt (t m c cl : ℝ) (hm : 0 ≤ m) (hc : c ≤ 1) (hcl : cl ≤ 1)
    (ht : 0.7 < t) (hlow : c < 0.3 ∨ cl < 0.3) :
    ¬ (calculateEnergy t m c cl < 0.35) := by
  unfold calculateEnergy
  have key : (0.35 : ℝ) < 0.4 * t + 0.1 * m + 0.3 * (1 - c) + 0.2 * (1 - cl) := by
    rcases hlow with hx | hx
    · nlinarith
    · nlinarith
  exact not_lt.mpr (le_of_lt (clamp01_gt_of_gt (by norm_num) key))

/-- C9: the detector never reports `isStagnant = true` together with
`atEquilibrium = true` (their conjunction is always the false Boolean):
stagnation forces the current tick tension above `0.7` together with
coherence below `0.3` or clarity below `0.3`, which pushes the energy
above the `0.35` equilibrium threshold. -/
theorem detect_not_stagnant_and_equilibrium (cfg : DetectorConfig) (llm : DetectorLLM)
    (st : DetectorState) (scen : String) (signals : List Signal)
    (agents : List AgentRec) :
    ((detect cfg llm st scen signals agents).2.1.isStagnant &&
     (detect cfg llm st scen signals agents).2.1.atEquilibrium) = false := by
  unfold detect
  dsimp only
  by_cases h1 : signals.length < cfg.minSignalWindow
  · rw [if_pos h1]
    simp [guardReport]
  · rw [if_neg h1]
    by_cases h2 : st.currentTick + 1 < cfg.minTicks
    · rw [if_pos h2]
      simp [guardReport]
    · rw [if_neg h2]
      dsimp only
      by_cases hs : detectStagnation
          ((extractIdealState llm { st with currentTick := st.currentTick + 1 }
              scen).1.stagnationHistory ++
            [{ tick := (extractIdealState llm
                  { st with currentTick := st.currentTick + 1 } scen).1.currentTick,
               tension := (measureGoalTension llm
                  (extractIdealState llm { st with currentTick := st.currentTick + 1 }
                    scen).2.1 (jsSlice signals (-(signalWindowSize : ℤ)) none)).1,
               coherence := measureCoherence
                  (jsSlice signals (-(signalWindowSize : ℤ)) none),
               clarity := (measureDecisionClarity llm
                  (jsSlice signals (-(signalWindowSize : ℤ)) none)).1 }]
            |> fun hist1 =>
              if stagnationWindowSize < hist1.length then hist1.tail else hist1) = true
      · rw [hs, Bool.true_and]
        obtain ⟨htension, hlow⟩ :=
          detectStagnation_last _ _ (pushed_history_getLast _ _) hs
        have hnot := calculateEnergy_not_lt _ _ _ _
          (measureMomentum_nonneg cfg signals
            (jsSlice signals (-(signalWindowSize : ℤ)) none))
          (measureCoherence_le_one (jsSlice signals (-(signalWindowSize : ℤ)) none))
          (measureDecisionClarity_fst_le_one llm
            (jsSlice signals (-(signalWindowSize : ℤ)) none))
          htension hlow
        exact decide_eq_false fun hP => hnot hP.1
      · rw [(Bool.not_eq_true _).mp hs, Bool.false_and]

/-! ## Claim C2: the ideal-state embedding cache is written but never read -/

/-- Backend oracle for the C2 evaluation: every embedding is `[1]`, the
chat reply (the extracted ideal state) is always `"IDEAL"`. -/
def c2Llm : DetectorLLM := { embed := fun _ => [1], chat := fun _ => "IDEAL" }

/-- Guards lowered so that a single signal and a first invocation already
take the full path. -/
def c2Cfg : DetectorConfig := { minSignalWindow := 1, minTicks := 1 }

/-- One signal with thought `"t"`. -/
def c2Signals : List Signal := [⟨"s0", "t", "a", [1], 0, none, none⟩]

/-- Fresh detector state. -/
def c2State0 : DetectorState := ⟨[], 0, []⟩

/-- C2 evaluation: invoking the detector twice with the same scenario
`"scn"` past its guards.  In the first invocation the ideal-state text
`"IDEAL"` is embedded twice (once by `extractIdealState` to fill the
cache, once again by `measureGoalTension`); in the second invocation the
cached embedding is not reused: `extractIdealState` returns the raw
scenario string on a cache hit, and `measureGoalTension` embeds that
string (`"scn"` appears in the embed trace) instead of reading the cached
entry.  The ideal-state embedding is therefore computed three times across
the two invocations, not at most once. -/
theorem detect_reembeds_ideal_state :
    (detect c2Cfg c2Llm c2State0 "scn" c2Signals []).2.2.count "IDEAL" = 2 ∧
    (detect c2Cfg c2Llm (detect c2Cfg c2Llm c2State0 "scn" c2Signals []).1 "scn"
        c2Signals []).2.2.count "IDEAL" = 0 ∧
    "scn" ∈ (detect c2Cfg c2Llm (detect c2Cfg c2Llm c2State0 "scn" c2Signals []).1 "scn"
        c2Signals []).2.2 := by
  refine ⟨?_, ?_, ?_⟩ <;> decide
